import Mathlib

/-!
Shallow embedding of the salary/income-tax calculator in `app.py`.

Modelling conventions:
* Python floats are modelled as exact rationals (ℚ).  The program only adds,
  multiplies, compares and rounds small decimal amounts, so rational
  arithmetic mirrors the intended arithmetic of the source.
* A month label in "%b-%Y" format is modelled as the absolute month number
  `12 * year + monthIndex` (with January = 0); `strftime`/`strptime` is a
  bijection between well-formed labels and these numbers, and label
  comparison in the source is equality of these numbers.
* `round(x, 2)` is Python rounding to two decimal places with ties to even.
* Dictionaries with a constant key set (`DA_RATES`, `HRA_RATES`) are
  modelled as association lists / total functions with the source default.
* The scale spreadsheet read by `load_all_ranges` is passed in as data: a
  list of rows, each row already split on "-" and parsed by `float`.  A
  Python `float` literal produced by splitting on "-" can never be
  negative (a sign would have been consumed as a separator), so every
  number reaching `parse_scale` is nonnegative; theorems that need this
  take it as an explicit hypothesis.
* `raise ValueError` is modelled by `Except.error`.
-/

/-- Absolute month number for year `y` and zero-based month index `m`
(January = 0), the embedding of a "%b-%Y" label. -/
def mkMonth (y m : ℕ) : ℕ := 12 * y + m

/-- The twelve projected months, `MONTHS` in `app.py`:
Mar-2025, Apr-2025, ..., Dec-2025, Jan-2026, Feb-2026. -/
def MONTHS : List ℕ :=
  [mkMonth 2025 2, mkMonth 2025 3, mkMonth 2025 4, mkMonth 2025 5,
   mkMonth 2025 6, mkMonth 2025 7, mkMonth 2025 8, mkMonth 2025 9,
   mkMonth 2025 10, mkMonth 2025 11, mkMonth 2026 0, mkMonth 2026 1]

/-- `DA_RATES = {"Mar-2025": 0.1275, "Jul-2025": 0.1475}` as an association
list from month numbers to rates. -/
def DA_RATES : List (ℕ × ℚ) :=
  [(mkMonth 2025 2, 1275/10000), (mkMonth 2025 6, 1475/10000)]

/-- `HRA_RATES = {"A": 0.20, "B": 0.15, "C": 0.075}`, looked up with
default 0 (`HRA_RATES.get(city_grade, 0)`). -/
def HRA_RATES (g : String) : ℚ :=
  if g = "A" then 20/100 else if g = "B" then 15/100
  else if g = "C" then 75/1000 else 0

/-- `CCA_AMOUNT = 600`. -/
def CCA_AMOUNT : ℚ := 600

/-- `MEDICAL_AMOUNT = 500`. -/
def MEDICAL_AMOUNT : ℚ := 500

/-- `TAX_SLABS`: (lower, upper, rate) with `none` standing for `math.inf`. -/
def TAX_SLABS : List (ℚ × Option ℚ × ℚ) :=
  [(0, some 400000, 0), (400000, some 800000, 5/100),
   (800000, some 1200000, 10/100), (1200000, some 1600000, 15/100),
   (1600000, some 2000000, 20/100), (2000000, some 2400000, 25/100),
   (2400000, none, 30/100)]

/-- `STANDARD_DEDUCTION = 75000`. -/
def STANDARD_DEDUCTION : ℚ := 75000

/-- `REBATE_87A = 75000`. -/
def REBATE_87A : ℚ := 75000

/-- Rounding of a rational to the nearest integer with ties to even,
Python's `round` on an exact value. -/
def roundHalfEven (q : ℚ) : ℤ :=
  if Int.fract q = 1/2 then (if 2 ∣ ⌊q⌋ then ⌊q⌋ else ⌊q⌋ + 1) else round q

/-- Python `round(x, 2)`: round to two decimal places, ties to even. -/
def round2 (q : ℚ) : ℚ := (roundHalfEven (100 * q) : ℚ) / 100

/-- Python `str.upper()` restricted to the characters the form uses. -/
def pyUpper (s : String) : String := ⟨s.data.map Char.toUpper⟩

/-- Python `str.strip()`: drop leading and trailing whitespace. -/
def pyStrip (s : String) : String :=
  ⟨((s.data.dropWhile Char.isWhitespace).reverse.dropWhile
      Char.isWhitespace).reverse⟩

/-- Elements at even positions of a list, Python `numbers[0::2]`. -/
def everyOther : List ℚ → List ℚ
  | [] => []
  | [x] => [x]
  | x :: _ :: rest => x :: everyOther rest

/-- `parse_scale` from `app.py`, taking the list of numbers obtained by
splitting the scale string on "-" and parsing each part with `float`:
rejects fewer than three numbers or an even count, otherwise pairs the
even-position salaries with the odd-position increments into
(start, end, increment) triples. -/
def parse_scale (numbers : List ℚ) : Except String (List (ℚ × ℚ × ℚ)) :=
  if numbers.length < 3 ∨ numbers.length % 2 = 0 then
    Except.error "Invalid scale format"
  else
    let salaries := everyOther numbers
    let increments := everyOther numbers.tail
    Except.ok ((List.range increments.length).map
      (fun i => (salaries.getD i 0, salaries.getD (i + 1) 0,
                increments.getD i 0)))

/-- `load_all_ranges` from `app.py`, with the spreadsheet column already
read as a list of number lists: parses every scale row in order; the first
`ValueError` aborts the whole load (the source has no try/except). -/
def load_all_ranges : List (List ℚ) → Except String (List (List (ℚ × ℚ × ℚ)))
  | [] => Except.ok []
  | s :: rest => do
    let r ← parse_scale s
    let rs ← load_all_ranges rest
    Except.ok (r :: rs)

/-- Inner loop of `calculate_increment_from_scales`: first triple of one
scale row whose half-open range contains the salary, returning the
incremented salary. -/
def findIncrementInRow (salary : ℚ) : List (ℚ × ℚ × ℚ) → Option ℚ
  | [] => none
  | (s, e, inc) :: rest =>
    if s ≤ salary ∧ salary < e then some (salary + inc)
    else findIncrementInRow salary rest

/-- Outer loop of `calculate_increment_from_scales` with the 1-based row
counter from `enumerate(all_ranges, start=1)`. -/
def calcIncrementAux (salary : ℚ) (idx : ℕ) :
    List (List (ℚ × ℚ × ℚ)) → ℚ × Option ℕ
  | [] => (salary, none)
  | row :: rest =>
    match findIncrementInRow salary row with
    | some v => (v, some idx)
    | none => calcIncrementAux salary (idx + 1) rest

/-- `calculate_increment_from_scales` from `app.py`. -/
def calculate_increment_from_scales (salary : ℚ)
    (all_ranges : List (List (ℚ × ℚ × ℚ))) : ℚ × Option ℕ :=
  calcIncrementAux salary 1 all_ranges

/-- The scan of `get_da_rate_for_month`: walk the date-sorted items,
remembering the last rate whose effective date is at most the month,
stopping at the first later date. -/
def daRateScan (m : ℕ) (applicable : ℚ) : List (ℕ × ℚ) → ℚ
  | [] => applicable
  | (dt, rate) :: rest =>
    if dt ≤ m then daRateScan m rate rest else applicable

/-- `get_da_rate_for_month` from `app.py`: sort `DA_RATES` by effective
date, then scan for the most recent rate effective at or before `m`. -/
def get_da_rate_for_month (m : ℕ) : ℚ :=
  daRateScan m 0 (DA_RATES.insertionSort (fun a b => a.1 ≤ b.1))

/-- The slab loop of `compute_income_tax_new_regime`: for each slab, stop
once taxable income no longer exceeds the lower bound, otherwise add the
slab slice times its rate. -/
def slabTaxLoop (taxable : ℚ) : List (ℚ × Option ℚ × ℚ) → ℚ → ℚ
  | [], tax => tax
  | (lower, upper, pct) :: rest, tax =>
    if taxable ≤ lower then tax
    else
      let capped := match upper with | none => taxable | some u => min taxable u
      let slice := capped - lower
      slabTaxLoop taxable rest (if 0 < slice then tax + slice * pct else tax)

/-- The tax-summary dictionary returned by `compute_income_tax_new_regime`. -/
structure TaxSummary where
  taxable_income : ℚ
  tax_before_rebate : ℚ
  rebate_applied : ℚ
  tax_after_rebate : ℚ
  cess : ℚ
  total_tax_liability : ℚ
deriving DecidableEq

/-- `compute_income_tax_new_regime` from `app.py`. -/
def compute_income_tax_new_regime (annual_gross : ℚ) : TaxSummary :=
  let taxable := max 0 (annual_gross - STANDARD_DEDUCTION)
  let tax := slabTaxLoop taxable TAX_SLABS 0
  let rebate := if taxable ≤ 1275000 then min REBATE_87A tax else 0
  let tax_after_rebate := max 0 (tax - rebate)
  let cess := tax_after_rebate * (4/100)
  { taxable_income := taxable
    tax_before_rebate := tax
    rebate_applied := rebate
    tax_after_rebate := tax_after_rebate
    cess := cess
    total_tax_liability := tax_after_rebate + cess }

/-- One monthly row of the salary table. -/
structure MonthlyRow where
  month : ℕ
  basic : ℚ
  da : ℚ
  hra : ℚ
  cca : ℚ
  medical : ℚ
  gross : ℚ
deriving DecidableEq

/-- The per-month component computation from the loop body of
`process_salary_form` (lines 135-142): DA and HRA from the current basic,
CCA for city grades A/B, medical suppressed for groups A/B, gross the sum. -/
def computeRow (current_basic : ℚ) (month : ℕ)
    (city_grade group : String) : MonthlyRow :=
  let da := round2 (current_basic * get_da_rate_for_month month)
  let hra := round2 (current_basic * HRA_RATES city_grade)
  let cca : ℚ := if city_grade = "A" ∨ city_grade = "B" then CCA_AMOUNT else 0
  let medical : ℚ := if group = "A" ∨ group = "B" then 0 else MEDICAL_AMOUNT
  { month := month
    basic := current_basic
    da := da
    hra := hra
    cca := cca
    medical := medical
    gross := current_basic + da + hra + cca + medical }

/-- The month loop of `process_salary_form`: apply the regular increment
when the month matches, then the time-bound increment when it matches,
emit the row, remember the Dec-2025 gross, and carry the basic forward.
Returns the rows together with the final `dec_gross`. -/
def run_months (im tb : Option ℕ) (cg gr : String)
    (rs : List (List (ℚ × ℚ × ℚ))) :
    List ℕ → ℚ → ℚ → List MonthlyRow × ℚ
  | [], _, dec => ([], dec)
  | m :: rest, cb, dec =>
    let cb1 := if im = some m then (calculate_increment_from_scales cb rs).1 else cb
    let cb2 := if tb = some m then (calculate_increment_from_scales cb1 rs).1 else cb1
    let row := computeRow cb2 m cg gr
    let dec2 := if m = mkMonth 2025 11 then row.gross else dec
    let r := run_months im tb cg gr rs rest cb2 dec2
    (row :: r.1, r.2)

/-- The form fields of `process_salary_form` that influence the computed
numbers.  `increment_month` and `timebond_month` hold the output of
`parse_month` (a normalized month, or `none` for an empty field);
`leave_encashment` is `none` when the field is absent (the source then
defaults it to "NO").  Personal identification fields are omitted: they
are echoed into the report unchanged. -/
structure FormData where
  basic_salary : ℚ
  increment_month : Option ℕ
  timebond_month : Option ℕ
  leave_encashment : Option String
  allowance : ℚ
  group : String
  city_grade : String
deriving DecidableEq

/-- The numeric outputs of `process_salary_form`. -/
structure SalaryResult where
  monthly_rows : List MonthlyRow
  annual_basic : ℚ
  annual_da : ℚ
  annual_hra : ℚ
  annual_cca : ℚ
  annual_medical : ℚ
  annual_gross : ℚ
  el_encashment_amount : ℚ
  allowance : ℚ
  annual_gross_with_all : ℚ
  tax_summary : TaxSummary
deriving DecidableEq

/-- `process_salary_form` from `app.py`, with the scale table (loaded by
`load_all_ranges` in the source) passed in as `all_ranges`. -/
def process_salary_form (fd : FormData)
    (all_ranges : List (List (ℚ × ℚ × ℚ))) : SalaryResult :=
  let group := pyUpper (pyStrip fd.group)
  let city_grade := pyUpper (pyStrip fd.city_grade)
  let leave := pyUpper (pyStrip (fd.leave_encashment.getD "NO"))
  let res := run_months fd.increment_month fd.timebond_month city_grade group
    all_ranges MONTHS fd.basic_salary 0
  let rows := res.1
  let dec_gross := res.2
  let annual_gross := (rows.map (fun r => r.gross)).sum
  let el := if leave = "YES" then (1/2) * dec_gross else 0
  let total := annual_gross + el + fd.allowance
  { monthly_rows := rows
    annual_basic := (rows.map (fun r => r.basic)).sum
    annual_da := (rows.map (fun r => r.da)).sum
    annual_hra := (rows.map (fun r => r.hra)).sum
    annual_cca := (rows.map (fun r => r.cca)).sum
    annual_medical := (rows.map (fun r => r.medical)).sum
    annual_gross := annual_gross
    el_encashment_amount := el
    allowance := fd.allowance
    annual_gross_with_all := total
    tax_summary := compute_income_tax_new_regime total }

/-- Specification-side selection of the most recent DA-rate entry whose
effective date is at or before `m`. -/
def bestEffective (schedule : List (ℕ × ℚ)) (m : ℕ) : Option (ℕ × ℚ) :=
  (schedule.filter (fun p => p.1 ≤ m)).foldl
    (fun acc p =>
      match acc with
      | none => some p
      | some q => if q.1 ≤ p.1 then some p else some q)
    none

/-! ### Helper lemmas -/

/-- Rounding an integer with ties to even is the identity. -/
lemma roundHalfEven_intCast (n : ℤ) : roundHalfEven (n : ℚ) = n := by
  simp [roundHalfEven, Int.fract_intCast, round_intCast]

/-- `round2` fixes whole rupee amounts. -/
lemma round2_intCast (n : ℤ) : round2 (n : ℚ) = n := by
  have h : (100 : ℚ) * (n : ℚ) = ((100 * n : ℤ) : ℚ) := by push_cast; ring
  rw [round2, h, roundHalfEven_intCast]
  push_cast
  ring

/-- `round2` fixes zero. -/
lemma round2_zero : round2 0 = 0 := by
  simpa using round2_intCast 0

/-- `round2` fixes exact multiples of a hundredth. -/
lemma round2_hundredth (n : ℤ) (q : ℚ) (h : 100 * q = (n : ℚ)) :
    round2 q = (n : ℚ) / 100 := by
  rw [round2, h, roundHalfEven_intCast]

lemma computeRow_month (cb : ℚ) (m : ℕ) (cg gr : String) :
    (computeRow cb m cg gr).month = m := rfl

lemma computeRow_basic (cb : ℚ) (m : ℕ) (cg gr : String) :
    (computeRow cb m cg gr).basic = cb := rfl

/-- The gross of an emitted row is the sum of its five components. -/
lemma computeRow_gross_decomp (cb : ℚ) (m : ℕ) (cg gr : String) :
    (computeRow cb m cg gr).gross =
      (computeRow cb m cg gr).basic + (computeRow cb m cg gr).da +
      (computeRow cb m cg gr).hra + (computeRow cb m cg gr).cca +
      (computeRow cb m cg gr).medical := rfl

/-- The DA rate table is already sorted by effective date, so the sort in
`get_da_rate_for_month` leaves it unchanged. -/
lemma da_rates_sorted :
    DA_RATES.insertionSort (fun a b => a.1 ≤ b.1) = DA_RATES := rfl

/-- Closed form of `get_da_rate_for_month` over the two-entry schedule. -/
lemma get_da_rate_cases (m : ℕ) :
    get_da_rate_for_month m =
      if mkMonth 2025 6 ≤ m then 1475/10000
      else if mkMonth 2025 2 ≤ m then 1275/10000
      else 0 := by
  by_cases h6 : mkMonth 2025 6 ≤ m
  · have h2 : mkMonth 2025 2 ≤ m := le_trans (by norm_num [mkMonth]) h6
    simp [get_da_rate_for_month, da_rates_sorted, DA_RATES, daRateScan, h2, h6]
  · by_cases h2 : mkMonth 2025 2 ≤ m
    · simp [get_da_rate_for_month, da_rates_sorted, DA_RATES, daRateScan, h2, h6]
    · simp [get_da_rate_for_month, da_rates_sorted, DA_RATES, daRateScan, h2, h6]

/-- **C9.** For basic pay 30000 in a month whose DA rate is 0.1475
(Jul-2025), city grade C (HRA rate 0.075, CCA 0) and a group that is not A
or B (medical 500), the monthly components are DA 4425, HRA 2250, CCA 0,
medical 500 and the gross is 30000 + 4425 + 2250 + 0 + 500 = 37175. -/
theorem C9_example_row :
    (computeRow 30000 (mkMonth 2025 6) "C" "C").da = 4425
    ∧ (computeRow 30000 (mkMonth 2025 6) "C" "C").hra = 2250
    ∧ (computeRow 30000 (mkMonth 2025 6) "C" "C").cca = 0
    ∧ (computeRow 30000 (mkMonth 2025 6) "C" "C").medical = 500
    ∧ (computeRow 30000 (mkMonth 2025 6) "C" "C").gross =
        30000 + 4425 + 2250 + 0 + 500 := by
  have h1 : get_da_rate_for_month (mkMonth 2025 6) = 1475/10000 := by
    rw [get_da_rate_cases]
    norm_num
  have h2 : (30000 : ℚ) * (1475/10000 : ℚ) = ((4425 : ℤ) : ℚ) := by norm_num
  have h0 : HRA_RATES "C" = 75/1000 := rfl
  have h3 : (30000 : ℚ) * (75/1000 : ℚ) = ((2250 : ℤ) : ℚ) := by norm_num
  have hab : ¬(("C" : String) = "A" ∨ ("C" : String) = "B") := by decide
  simp only [computeRow, h0, h1, h2, h3, round2_intCast, if_neg hab]
  norm_num [MEDICAL_AMOUNT]

/-- **C5.** The tax summary satisfies
`total_tax_liability = tax_after_rebate + cess`,
`tax_after_rebate = max 0 (tax_before_rebate - rebate_applied)` and
`cess = 0.04 * tax_after_rebate`, for every annual gross income. -/
theorem C5_tax_summary_invariants (g : ℚ) :
    (compute_income_tax_new_regime g).total_tax_liability =
      (compute_income_tax_new_regime g).tax_after_rebate +
      (compute_income_tax_new_regime g).cess
    ∧ (compute_income_tax_new_regime g).tax_after_rebate =
      max 0 ((compute_income_tax_new_regime g).tax_before_rebate -
             (compute_income_tax_new_regime g).rebate_applied)
    ∧ (compute_income_tax_new_regime g).cess =
      (4/100) * (compute_income_tax_new_regime g).tax_after_rebate := by
  refine ⟨rfl, rfl, ?_⟩
  simp only [compute_income_tax_new_regime]
  ring

/-- The slab loop yields zero tax when taxable income does not exceed the
zero-rate ceiling 400000. -/
lemma slabTaxLoop_zero (t : ℚ) (h : t ≤ 400000) :
    slabTaxLoop t TAX_SLABS 0 = 0 := by
  by_cases h0 : t ≤ 0
  · simp [TAX_SLABS, slabTaxLoop, h0]
  · have hmin : min t 400000 = t := min_eq_left h
    simp [TAX_SLABS, slabTaxLoop, h0, hmin, h, not_le.mp h0]

/-- **C1.** If taxable income (gross minus the 75000 standard deduction,
floored at 0) is at most the zero-rate ceiling 400000 then the slab tax and
the total liability are 0; and whenever taxable income is at most the
rebate threshold 1275000 and the slab tax is at most the rebate cap 75000,
the applied rebate equals that tax, so the tax after rebate is 0. -/
theorem C1_zero_tax_and_rebate (g : ℚ) :
    ((compute_income_tax_new_regime g).taxable_income ≤ 400000 →
      (compute_income_tax_new_regime g).tax_before_rebate = 0
      ∧ (compute_income_tax_new_regime g).total_tax_liability = 0)
    ∧ ((compute_income_tax_new_regime g).taxable_income ≤ 1275000 →
       (compute_income_tax_new_regime g).tax_before_rebate ≤ 75000 →
       (compute_income_tax_new_regime g).rebate_applied =
         (compute_income_tax_new_regime g).tax_before_rebate
       ∧ (compute_income_tax_new_regime g).tax_after_rebate = 0) := by
  constructor
  · intro h
    have htax : slabTaxLoop (max 0 (g - STANDARD_DEDUCTION)) TAX_SLABS 0 = 0 :=
      slabTaxLoop_zero _ h
    have h1275 : max 0 (g - STANDARD_DEDUCTION) ≤ 1275000 :=
      le_trans h (by norm_num)
    simp only [compute_income_tax_new_regime] at *
    rw [htax]
    simp [h1275, REBATE_87A]
  · intro h1275 hcap
    simp only [compute_income_tax_new_regime] at *
    have hmin : min REBATE_87A (slabTaxLoop (max 0 (g - STANDARD_DEDUCTION)) TAX_SLABS 0)
        = slabTaxLoop (max 0 (g - STANDARD_DEDUCTION)) TAX_SLABS 0 :=
      min_eq_right (by simpa [REBATE_87A] using hcap)
    simp [h1275, hmin]

/-- Concrete instantiation of `C1_zero_tax_and_rebate` at annual gross
400000: taxable income is 325000, within the zero slab, and the total
liability is 0. -/
theorem C1_zero_tax_and_rebate_witness :
    (compute_income_tax_new_regime 400000).total_tax_liability = 0 := by
  have h : (compute_income_tax_new_regime 400000).taxable_income ≤ 400000 := by
    simp only [compute_income_tax_new_regime, STANDARD_DEDUCTION]
    norm_num
  exact ((C1_zero_tax_and_rebate 400000).1 h).2

/-- The inner row scan returns the incremented salary of the first matching
triple of the row. -/
lemma findIncrementInRow_eq_find (s : ℚ) (row : List (ℚ × ℚ × ℚ)) :
    findIncrementInRow s row =
      (row.find? (fun t => decide (t.1 ≤ s ∧ s < t.2.1))).map
        (fun t => s + t.2.2) := by
  induction row with
  | nil => rfl
  | cons t rest ih =>
    obtain ⟨a, b, c⟩ := t
    by_cases h : a ≤ s ∧ s < b
    · simp [findIncrementInRow, List.find?_cons, h]
    · simp [findIncrementInRow, List.find?_cons, h, ih]

/-- The outer scan over all scale rows selects the first matching triple in
row order, independently of the row counter. -/
lemma calcIncrementAux_fst (s : ℚ) :
    ∀ (rss : List (List (ℚ × ℚ × ℚ))) (idx : ℕ),
      (calcIncrementAux s idx rss).1 =
        match rss.flatten.find? (fun t => decide (t.1 ≤ s ∧ s < t.2.1)) with
        | some t => s + t.2.2
        | none => s := by
  intro rss
  induction rss with
  | nil => intro idx; rfl
  | cons row rest ih =>
    intro idx
    rw [calcIncrementAux, findIncrementInRow_eq_find, List.flatten_cons,
      List.find?_append]
    cases hfind : row.find? (fun t => decide (t.1 ≤ s ∧ s < t.2.1)) with
    | none =>
      rw [Option.map_none', Option.none_or]
      exact ih (idx + 1)
    | some t =>
      rw [Option.map_some', Option.or_some]

/-- **C2.** `calculate_increment_from_scales` returns `s + increment` for
the first triple (start, end, increment), scanning scale rows in order,
whose half-open range satisfies `start ≤ s < end`; if no range in any row
matches, it returns `s` unchanged. -/
theorem C2_scale_lookup (s : ℚ) (all_ranges : List (List (ℚ × ℚ × ℚ))) :
    (calculate_increment_from_scales s all_ranges).1 =
      match all_ranges.flatten.find? (fun t => decide (t.1 ≤ s ∧ s < t.2.1)) with
      | some t => s + t.2.2
      | none => s :=
  calcIncrementAux_fst s all_ranges 1

/-- A malformed number list (fewer than three numbers or an even count)
makes `parse_scale` raise. -/
lemma parse_scale_error (ns : List ℚ)
    (h : ns.length < 3 ∨ ns.length % 2 = 0) :
    parse_scale ns = Except.error "Invalid scale format" := by
  simp [parse_scale, h]

/-- If any scale row is malformed, the whole load raises instead of
producing a table. -/
lemma load_all_ranges_error_of_malformed :
    ∀ (scales : List (List ℚ)), ∀ ns ∈ scales,
      (ns.length < 3 ∨ ns.length % 2 = 0) →
      ∀ tbl, load_all_ranges scales ≠ Except.ok tbl := by
  intro scales
  induction scales with
  | nil => intro ns h; simp at h
  | cons s rest ih =>
    intro ns hmem hbad tbl
    rcases List.mem_cons.mp hmem with hs | hs
    · subst hs
      rw [load_all_ranges, parse_scale_error ns hbad]
      intro h
      exact Except.noConfusion h
    · rw [load_all_ranges]
      cases hp : parse_scale s with
      | error e => intro h; exact Except.noConfusion h
      | ok r =>
        show (do
          let rs ← load_all_ranges rest
          Except.ok (r :: rs)) ≠ Except.ok tbl
        cases hl : load_all_ranges rest with
        | error e =>
          intro h
          exact Except.noConfusion h
        | ok rs =>
          exact absurd hl (ih ns hs hbad rs)

/-- **C3, counterexample.** The scale string "100-50" parses into the two
numbers [100, 50] (an even count), and loading a sheet containing it does
not succeed with a default catch-all range: it fails with the ValueError
raised by `parse_scale`, which `load_all_ranges` does not catch. -/
theorem C3_counterexample :
    load_all_ranges [[100, 50]] = Except.error "Invalid scale format" := rfl

/-- **C3, amended.** Malformed scale data (fewer than three numbers, or an
even count) makes `parse_scale` raise ValueError; a sheet containing such
a row therefore fails to load — there is no fallback to a default
catch-all range — and an empty sheet loads as an empty scale table, again
with no default range. -/
theorem C3_no_fallback_on_malformed :
    (∀ ns : List ℚ, (ns.length < 3 ∨ ns.length % 2 = 0) →
      parse_scale ns = Except.error "Invalid scale format")
    ∧ (∀ (scales : List (List ℚ)), ∀ ns ∈ scales,
        (ns.length < 3 ∨ ns.length % 2 = 0) →
        ∀ tbl, load_all_ranges scales ≠ Except.ok tbl)
    ∧ load_all_ranges [] = Except.ok [] :=
  ⟨parse_scale_error, load_all_ranges_error_of_malformed, rfl⟩

/-- Concrete instantiation of `C3_no_fallback_on_malformed` on the sheet
whose single row is the two-number list [100, 50]. -/
theorem C3_no_fallback_witness :
    parse_scale [100, 50] = Except.error "Invalid scale format"
    ∧ load_all_ranges [[100, 50]] ≠ Except.ok [] := by
  have h := C3_no_fallback_on_malformed
  exact ⟨h.1 [100, 50] (by norm_num),
         h.2.1 [[100, 50]] [100, 50] (by simp) (by norm_num) []⟩

/-- **C8.** `get_da_rate_for_month` returns the rate of the most recent
effective date in the DA schedule that is at or before the month, and 0
for a month earlier than every effective date. -/
theorem C8_da_rate_most_recent (m : ℕ) :
    (get_da_rate_for_month m =
      (match bestEffective DA_RATES m with
       | some p => p.2
       | none => 0))
    ∧ ((∀ p ∈ DA_RATES, m < p.1) → get_da_rate_for_month m = 0) := by
  constructor
  · have hcases := get_da_rate_cases m
    norm_num [mkMonth] at hcases
    rw [hcases]
    by_cases h6 : 24306 ≤ m
    · have h2 : 24302 ≤ m := by omega
      simp [bestEffective, DA_RATES, mkMonth, List.filter_cons, List.foldl_cons,
        h2, h6]
      norm_num
    · by_cases h2 : 24302 ≤ m
      · simp [bestEffective, DA_RATES, mkMonth, List.filter_cons, List.foldl_cons,
          h2, h6]
        norm_num
      · simp [bestEffective, DA_RATES, mkMonth, List.filter_cons, List.foldl_cons,
          h2, h6]
  · intro hall
    rw [get_da_rate_cases]
    have h2 := hall (mkMonth 2025 2, 1275/10000) (by simp [DA_RATES])
    have h6 := hall (mkMonth 2025 6, 1475/10000) (by simp [DA_RATES])
    simp only at h2 h6
    rw [if_neg (not_le.mpr h6), if_neg (not_le.mpr h2)]

/-- Concrete instantiation of `C8_da_rate_most_recent`: month 0 precedes
every effective date, so the DA rate is 0. -/
theorem C8_da_rate_most_recent_witness : get_da_rate_for_month 0 = 0 :=
  (C8_da_rate_most_recent 0).2 (by norm_num [DA_RATES, mkMonth])

/-! ### Lemmas about the month loop -/

/-- The month loop emits one row per month, in order. -/
lemma run_months_map_month (im tb : Option ℕ) (cg gr : String)
    (rs : List (List (ℚ × ℚ × ℚ))) :
    ∀ (months : List ℕ) (cb dec : ℚ),
      ((run_months im tb cg gr rs months cb dec).1).map (fun r => r.month)
        = months := by
  intro months
  induction months with
  | nil => intro cb dec; rfl
  | cons m rest ih =>
    intro cb dec
    simp only [run_months, List.map_cons, computeRow_month]
    rw [ih]

/-- Every emitted row's gross is the sum of its five components. -/
lemma run_months_gross_decomp (im tb : Option ℕ) (cg gr : String)
    (rs : List (List (ℚ × ℚ × ℚ))) :
    ∀ (months : List ℕ) (cb dec : ℚ),
      ∀ row ∈ (run_months im tb cg gr rs months cb dec).1,
        row.gross = row.basic + row.da + row.hra + row.cca + row.medical := by
  intro months
  induction months with
  | nil => intro cb dec row h; simp [run_months] at h
  | cons m rest ih =>
    intro cb dec row h
    simp only [run_months, List.mem_cons] at h
    rcases h with h | h
    · subst h; exact computeRow_gross_decomp _ _ _ _
    · exact ih _ _ row h

/-- A successful inner row scan used a triple of that row. -/
lemma findIncrementInRow_mem (s v : ℚ) :
    ∀ (row : List (ℚ × ℚ × ℚ)), findIncrementInRow s row = some v →
      ∃ t ∈ row, v = s + t.2.2 := by
  intro row
  induction row with
  | nil => intro h; exact absurd h (by simp [findIncrementInRow])
  | cons t rest ih =>
    obtain ⟨a, b, c⟩ := t
    intro h
    rw [findIncrementInRow] at h
    by_cases hc : a ≤ s ∧ s < b
    · rw [if_pos hc] at h
      exact ⟨(a, b, c), by simp, by simpa using (Option.some.inj h).symm⟩
    · rw [if_neg hc] at h
      obtain ⟨u, hu, hv⟩ := ih h
      exact ⟨u, List.mem_cons_of_mem _ hu, hv⟩

/-- With nonnegative increments, a scale lookup never lowers the salary. -/
lemma calc_increment_ge (s : ℚ) (rss : List (List (ℚ × ℚ × ℚ)))
    (hinc : ∀ row ∈ rss, ∀ t ∈ row, 0 ≤ t.2.2) :
    s ≤ (calculate_increment_from_scales s rss).1 := by
  rw [calculate_increment_from_scales]
  suffices h : ∀ (rss' : List (List (ℚ × ℚ × ℚ))),
      (∀ row ∈ rss', ∀ t ∈ row, 0 ≤ t.2.2) →
      ∀ idx, s ≤ (calcIncrementAux s idx rss').1 from h rss hinc 1
  intro rss'
  induction rss' with
  | nil => intro _ idx; simp [calcIncrementAux]
  | cons row rest ih =>
    intro h idx
    rw [calcIncrementAux]
    cases hf : findIncrementInRow s row with
    | none => exact ih (fun r hr => h r (List.mem_cons_of_mem _ hr)) (idx + 1)
    | some v =>
      obtain ⟨t, ht, hv⟩ := findIncrementInRow_mem s v row hf
      have h0 : 0 ≤ t.2.2 := h row (by simp) t ht
      simp only
      rw [hv]
      linarith

/-- One conditional increment application never lowers the salary. -/
lemma incStep_ge (o : Option ℕ) (m : ℕ) (rs : List (List (ℚ × ℚ × ℚ)))
    (hinc : ∀ row ∈ rs, ∀ t ∈ row, 0 ≤ t.2.2) (cb : ℚ) :
    cb ≤ (if o = some m then (calculate_increment_from_scales cb rs).1 else cb) := by
  by_cases h : o = some m
  · rw [if_pos h]; exact calc_increment_ge cb rs hinc
  · rw [if_neg h]

/-- With nonnegative increments the emitted basics form a nondecreasing
chain, and the first emitted basic is at least the incoming salary. -/
lemma run_months_chain (im tb : Option ℕ) (cg gr : String)
    (rs : List (List (ℚ × ℚ × ℚ)))
    (hinc : ∀ row ∈ rs, ∀ t ∈ row, 0 ≤ t.2.2) :
    ∀ (months : List ℕ) (cb dec : ℚ),
      List.Chain' (· ≤ ·)
        (((run_months im tb cg gr rs months cb dec).1).map (fun r => r.basic))
      ∧ ∀ b ∈ ((((run_months im tb cg gr rs months cb dec).1).map
          (fun r => r.basic)).head?), cb ≤ b := by
  intro months
  induction months with
  | nil =>
    intro cb dec
    exact ⟨by simp [run_months], by simp [run_months]⟩
  | cons m rest ih =>
    intro cb dec
    have hstep1 := incStep_ge im m rs hinc cb
    have hstep2 := incStep_ge tb m rs hinc
      (if im = some m then (calculate_increment_from_scales cb rs).1 else cb)
    simp only [run_months, List.map_cons, computeRow_basic]
    constructor
    · rw [List.chain'_cons']
      refine ⟨fun y hy => ?_, (ih _ _).1⟩
      exact (ih _ _).2 y hy
    · intro b hb
      simp only [List.head?_cons, Option.mem_def, Option.some.injEq] at hb
      rw [← hb]
      exact le_trans hstep1 hstep2

/-- When neither increment month ever matches, every emitted basic equals
the incoming salary. -/
lemma run_months_basic_const (im tb : Option ℕ) (cg gr : String)
    (rs : List (List (ℚ × ℚ × ℚ))) :
    ∀ (months : List ℕ) (cb dec : ℚ),
      (∀ m ∈ months, im ≠ some m ∧ tb ≠ some m) →
      ∀ row ∈ (run_months im tb cg gr rs months cb dec).1, row.basic = cb := by
  intro months
  induction months with
  | nil => intro cb dec _ row h; simp [run_months] at h
  | cons m rest ih =>
    intro cb dec hno row hrow
    have hm := hno m (by simp)
    simp only [run_months, if_neg hm.1, if_neg hm.2, List.mem_cons] at hrow
    rcases hrow with h | h
    · subst h; exact computeRow_basic _ _ _ _
    · exact ih _ _ (fun x hx => hno x (List.mem_cons_of_mem _ hx)) row h

/-- If December 2025 is not among the months, the loop leaves the
`dec_gross` accumulator unchanged. -/
lemma run_months_snd_of_not_mem (im tb : Option ℕ) (cg gr : String)
    (rs : List (List (ℚ × ℚ × ℚ))) :
    ∀ (months : List ℕ), mkMonth 2025 11 ∉ months → ∀ (cb dec : ℚ),
      (run_months im tb cg gr rs months cb dec).2 = dec := by
  intro months
  induction months with
  | nil => intro _ cb dec; rfl
  | cons m rest ih =>
    intro hnot cb dec
    have hm : ¬(m = mkMonth 2025 11) := by
      intro h
      exact hnot (h ▸ List.mem_cons_self m rest)
    simp only [run_months, if_neg hm]
    exact ih (fun h => hnot (List.mem_cons_of_mem _ h)) _ _

/-- When December 2025 occurs at most once in the month list, the
`dec_gross` the loop returns is the gross of the first (unique) row
labelled December 2025, or the initial accumulator when there is none. -/
lemma run_months_snd_eq_find (im tb : Option ℕ) (cg gr : String)
    (rs : List (List (ℚ × ℚ × ℚ))) :
    ∀ (months : List ℕ) (cb dec0 : ℚ),
      months.count (mkMonth 2025 11) ≤ 1 →
      (run_months im tb cg gr rs months cb dec0).2 =
        (match ((run_months im tb cg gr rs months cb dec0).1).find?
            (fun r => r.month == mkMonth 2025 11) with
         | some r => r.gross
         | none => dec0) := by
  intro months
  induction months with
  | nil => intro cb dec0 _; rfl
  | cons m rest ih =>
    intro cb dec0 hcount
    by_cases hm : m = mkMonth 2025 11
    · subst hm
      have hrest : mkMonth 2025 11 ∉ rest := by
        rw [← List.count_eq_zero]
        have := List.count_cons_self (mkMonth 2025 11) rest
        omega
      simp only [run_months, if_pos rfl, List.find?_cons, computeRow_month,
        beq_self_eq_true, if_true]
      rw [run_months_snd_of_not_mem im tb cg gr rs rest hrest]
    · have hcount' : rest.count (mkMonth 2025 11) ≤ 1 := by
        rw [List.count_cons_of_ne (fun h => hm h.symm)] at hcount
        exact hcount
      have hbeq : ((computeRow
          (if tb = some m then
            (calculate_increment_from_scales
              (if im = some m then (calculate_increment_from_scales cb rs).1
               else cb) rs).1
           else if im = some m then (calculate_increment_from_scales cb rs).1
           else cb) m cg gr).month == mkMonth 2025 11) = false := by
        simp [computeRow_month, hm]
      simp only [run_months, if_neg hm, List.find?_cons, hbeq]
      exact ih _ _ hcount'

/-! ### Nonnegativity of parsed scale increments -/

/-- Every element of `everyOther l` is an element of `l`. -/
lemma mem_everyOther {x : ℚ} : ∀ {l : List ℚ}, x ∈ everyOther l → x ∈ l := by
  intro l
  induction l using everyOther.induct with
  | case1 => intro h; simp [everyOther] at h
  | case2 y => intro h; simpa [everyOther] using h
  | case3 y z rest ih =>
    intro h
    rw [everyOther] at h
    rcases List.mem_cons.mp h with h | h
    · exact h ▸ List.mem_cons_self _ _
    · exact List.mem_cons_of_mem _ (List.mem_cons_of_mem _ (ih h))

/-- `getD` with default 0 of a nonnegative list is nonnegative. -/
lemma getD_nonneg (l : List ℚ) (hl : ∀ x ∈ l, 0 ≤ x) (i : ℕ) :
    0 ≤ l.getD i 0 := by
  by_cases hi : i < l.length
  · rw [List.getD_eq_getElem l 0 hi]
    exact hl _ (List.getElem_mem hi)
  · rw [List.getD_eq_default l 0 (not_lt.mp hi)]

/-- The ranges produced by `parse_scale` from nonnegative numbers (as every
"-"-split `float` is) have nonnegative increments. -/
lemma parse_scale_inc_nonneg (ns : List ℚ) (r : List (ℚ × ℚ × ℚ))
    (hok : parse_scale ns = Except.ok r) (hnn : ∀ x ∈ ns, 0 ≤ x) :
    ∀ t ∈ r, 0 ≤ t.2.2 := by
  intro t ht
  rw [parse_scale] at hok
  by_cases hbad : ns.length < 3 ∨ ns.length % 2 = 0
  · rw [if_pos hbad] at hok
    exact absurd hok (by simp)
  · rw [if_neg hbad] at hok
    simp only at hok
    rw [← Except.ok.inj hok] at ht
    obtain ⟨i, _, hti⟩ := List.mem_map.mp ht
    rw [← hti]
    exact getD_nonneg _ (fun x hx =>
      hnn x (List.mem_of_mem_tail (mem_everyOther hx))) i

/-- A successfully loaded scale table built from nonnegative numbers has
nonnegative increments throughout. -/
lemma load_all_ranges_inc_nonneg :
    ∀ (scales : List (List ℚ)) (tbl : List (List (ℚ × ℚ × ℚ))),
      load_all_ranges scales = Except.ok tbl →
      (∀ ns ∈ scales, ∀ x ∈ ns, 0 ≤ x) →
      ∀ row ∈ tbl, ∀ t ∈ row, 0 ≤ t.2.2 := by
  intro scales
  induction scales with
  | nil =>
    intro tbl h _ row hrow
    rw [load_all_ranges] at h
    rw [← Except.ok.inj h] at hrow
    simp at hrow
  | cons s rest ih =>
    intro tbl h hnn row hrow
    rw [load_all_ranges] at h
    cases hp : parse_scale s with
    | error e => rw [hp] at h; exact Except.noConfusion h
    | ok r =>
      rw [hp] at h
      cases hl : load_all_ranges rest with
      | error e =>
        rw [hl] at h
        exact Except.noConfusion h
      | ok rs =>
        rw [hl] at h
        have htbl : r :: rs = tbl := Except.ok.inj h
        rw [← htbl, List.mem_cons] at hrow
        rcases hrow with hr | hr
        · subst hr
          exact parse_scale_inc_nonneg s row hp (hnn s (by simp))
        · exact ih rs hl (fun ns hns => hnn ns (List.mem_cons_of_mem _ hns))
            row hr

/-- **C4.** For every form input, and every scale table successfully loaded
from spreadsheet numbers (all nonnegative, as every "-"-split `float` is),
the Basic field of the twelve emitted monthly rows is non-decreasing from
the first month to the last. -/
theorem C4_basic_nondecreasing (fd : FormData) (scales : List (List ℚ))
    (tbl : List (List (ℚ × ℚ × ℚ)))
    (hnn : ∀ ns ∈ scales, ∀ x ∈ ns, 0 ≤ x)
    (hload : load_all_ranges scales = Except.ok tbl) :
    List.Chain' (· ≤ ·)
      (((process_salary_form fd tbl).monthly_rows).map (fun r => r.basic)) := by
  have hinc := load_all_ranges_inc_nonneg scales tbl hload hnn
  exact (run_months_chain fd.increment_month fd.timebond_month
    (pyUpper (pyStrip fd.city_grade)) (pyUpper (pyStrip fd.group)) tbl hinc
    MONTHS fd.basic_salary 0).1

/-- **C7.** The annual gross total equals the sum of the Gross fields of
the twelve monthly rows, and each row's Gross equals the sum of its Basic,
DA, HRA, CCA and Medical fields. -/
theorem C7_gross_sums (fd : FormData) (rs : List (List (ℚ × ℚ × ℚ))) :
    (process_salary_form fd rs).annual_gross =
      (((process_salary_form fd rs).monthly_rows).map (fun r => r.gross)).sum
    ∧ ∀ row ∈ (process_salary_form fd rs).monthly_rows,
        row.gross = row.basic + row.da + row.hra + row.cca + row.medical := by
  refine ⟨rfl, ?_⟩
  intro row hrow
  exact run_months_gross_decomp fd.increment_month fd.timebond_month
    (pyUpper (pyStrip fd.city_grade)) (pyUpper (pyStrip fd.group)) rs
    MONTHS fd.basic_salary 0 row hrow

/-- **C10.** Exactly twelve monthly rows are produced, in the fixed order
Mar-2025 through Feb-2026; and if neither the parsed increment month nor
the parsed time-bound month equals any of those twelve labels, every
row's Basic equals the submitted starting salary (no scale lookup is
applied). -/
theorem C10_twelve_rows (fd : FormData) (rs : List (List (ℚ × ℚ × ℚ))) :
    (process_salary_form fd rs).monthly_rows.length = 12
    ∧ ((process_salary_form fd rs).monthly_rows).map (fun r => r.month) = MONTHS
    ∧ ((∀ m ∈ MONTHS, fd.increment_month ≠ some m ∧ fd.timebond_month ≠ some m) →
       ∀ row ∈ (process_salary_form fd rs).monthly_rows,
         row.basic = fd.basic_salary) := by
  have hmap := run_months_map_month fd.increment_month fd.timebond_month
    (pyUpper (pyStrip fd.city_grade)) (pyUpper (pyStrip fd.group)) rs
    MONTHS fd.basic_salary 0
  refine ⟨?_, hmap, ?_⟩
  · have := congrArg List.length hmap
    simpa using this
  · intro hno row hrow
    exact run_months_basic_const fd.increment_month fd.timebond_month
      (pyUpper (pyStrip fd.city_grade)) (pyUpper (pyStrip fd.group)) rs
      MONTHS fd.basic_salary 0 hno row hrow

/-- **C6.** The leave-encashment contribution is exactly 0 when the
leave_encashment field is "NO" or absent, and exactly half of the Dec-2025
row's gross when it is "YES"; total income equals annual gross plus this
contribution plus the flat allowance. -/
theorem C6_leave_encashment (fd : FormData) (rs : List (List (ℚ × ℚ × ℚ)))
    (drow : MonthlyRow)
    (hfind : ((process_salary_form fd rs).monthly_rows).find?
        (fun r => r.month == mkMonth 2025 11) = some drow) :
    ((fd.leave_encashment = none ∨ fd.leave_encashment = some "NO") →
        (process_salary_form fd rs).el_encashment_amount = 0)
    ∧ (fd.leave_encashment = some "YES" →
        (process_salary_form fd rs).el_encashment_amount = (1/2) * drow.gross)
    ∧ (process_salary_form fd rs).annual_gross_with_all =
        (process_salary_form fd rs).annual_gross +
        (process_salary_form fd rs).el_encashment_amount + fd.allowance := by
  refine ⟨?_, ?_, rfl⟩
  · intro hleave
    have hno : pyUpper (pyStrip (fd.leave_encashment.getD "NO")) = "NO" := by
      rcases hleave with h | h <;> rw [h] <;> rfl
    show (if pyUpper (pyStrip (fd.leave_encashment.getD "NO")) = "YES" then _
          else 0) = 0
    rw [hno, if_neg (by decide : ¬("NO" : String) = "YES")]
  · intro hyes
    have hl : pyUpper (pyStrip (fd.leave_encashment.getD "NO")) = "YES" := by
      rw [hyes]; rfl
    have hc : MONTHS.count (mkMonth 2025 11) ≤ 1 := by decide
    have hdec := run_months_snd_eq_find fd.increment_month fd.timebond_month
      (pyUpper (pyStrip fd.city_grade)) (pyUpper (pyStrip fd.group)) rs
      MONTHS fd.basic_salary 0 hc
    show (if pyUpper (pyStrip (fd.leave_encashment.getD "NO")) = "YES" then
            (1/2) * (run_months fd.increment_month fd.timebond_month
              (pyUpper (pyStrip fd.city_grade)) (pyUpper (pyStrip fd.group))
              rs MONTHS fd.basic_salary 0).2
          else 0) = (1/2) * drow.gross
    rw [hl, if_pos rfl, hdec]
    have hfind' : ((run_months fd.increment_month fd.timebond_month
        (pyUpper (pyStrip fd.city_grade)) (pyUpper (pyStrip fd.group))
        rs MONTHS fd.basic_salary 0).1).find?
          (fun r => r.month == mkMonth 2025 11) = some drow := hfind
    rw [hfind']

/-! ### A concrete form submission used to instantiate the theorems -/

/-- A concrete form: starting basic 0, no increment months, leave
encashment requested, no allowance, group C, city grade C. -/
def sampleForm : FormData :=
  { basic_salary := 0, increment_month := none, timebond_month := none,
    leave_encashment := some "YES", allowance := 0,
    group := "C", city_grade := "C" }

/-- The row `sampleForm` produces for every month: all proportional
components vanish with basic 0, leaving only the 500 medical allowance. -/
def sampleRow (m : ℕ) : MonthlyRow :=
  { month := m, basic := 0, da := 0, hra := 0, cca := 0, medical := 500,
    gross := 500 }

/-- With no increment months the loop emits one `computeRow` per month at
the unchanged basic. -/
lemma run_months_none (cg gr : String) (rs : List (List (ℚ × ℚ × ℚ))) :
    ∀ (months : List ℕ) (cb dec : ℚ),
      (run_months none none cg gr rs months cb dec).1 =
        months.map (fun m => computeRow cb m cg gr) := by
  intro months
  induction months with
  | nil => intro cb dec; rfl
  | cons m rest ih =>
    intro cb dec
    simp only [run_months, List.map_cons]
    rw [if_neg (by simp), if_neg (by simp)]
    rw [ih]

/-- Evaluation of the row computation at basic 0 with grades C/C. -/
lemma computeRow_zero_cc (m : ℕ) : computeRow 0 m "C" "C" = sampleRow m := by
  have hab : ¬(("C" : String) = "A" ∨ ("C" : String) = "B") := by decide
  simp only [computeRow, sampleRow, zero_mul, round2_zero, if_neg hab,
    MEDICAL_AMOUNT]
  norm_num

/-- The rows of the sample run, fully evaluated. -/
lemma process_sample_rows :
    (process_salary_form sampleForm []).monthly_rows = MONTHS.map sampleRow := by
  show (run_months none none (pyUpper (pyStrip "C")) (pyUpper (pyStrip "C"))
    [] MONTHS 0 0).1 = MONTHS.map sampleRow
  rw [show pyUpper (pyStrip "C") = "C" from rfl, run_months_none]
  exact List.map_congr_left (fun m _ => computeRow_zero_cc m)

/-- Concrete instantiation of `C4_basic_nondecreasing` on `sampleForm` and
the empty spreadsheet. -/
theorem C4_basic_nondecreasing_witness :
    List.Chain' (· ≤ ·)
      (((process_salary_form sampleForm []).monthly_rows).map
        (fun r => r.basic)) :=
  C4_basic_nondecreasing sampleForm [] [] (by simp) rfl

/-- Concrete instantiation of `C7_gross_sums` on `sampleForm`: the Mar-2025
row decomposes as 500 = 0 + 0 + 0 + 0 + 500. -/
theorem C7_gross_sums_witness :
    (process_salary_form sampleForm []).annual_gross =
      (((process_salary_form sampleForm []).monthly_rows).map
        (fun r => r.gross)).sum
    ∧ (sampleRow (mkMonth 2025 2)).gross =
        (sampleRow (mkMonth 2025 2)).basic + (sampleRow (mkMonth 2025 2)).da +
        (sampleRow (mkMonth 2025 2)).hra + (sampleRow (mkMonth 2025 2)).cca +
        (sampleRow (mkMonth 2025 2)).medical := by
  have h := C7_gross_sums sampleForm []
  refine ⟨h.1, ?_⟩
  have hmem : sampleRow (mkMonth 2025 2) ∈
      (process_salary_form sampleForm []).monthly_rows := by
    rw [process_sample_rows]
    exact List.mem_map_of_mem sampleRow (by simp [MONTHS])
  exact h.2 _ hmem

/-- Concrete instantiation of `C10_twelve_rows` on `sampleForm`: twelve
rows, and with no increment month every basic equals the submitted 0. -/
theorem C10_twelve_rows_witness :
    (process_salary_form sampleForm []).monthly_rows.length = 12
    ∧ (sampleRow (mkMonth 2025 2)).basic = sampleForm.basic_salary := by
  have h := C10_twelve_rows sampleForm []
  refine ⟨h.1, ?_⟩
  have hmem : sampleRow (mkMonth 2025 2) ∈
      (process_salary_form sampleForm []).monthly_rows := by
    rw [process_sample_rows]
    exact List.mem_map_of_mem sampleRow (by simp [MONTHS])
  exact h.2.2 (by simp [sampleForm]) _ hmem

/-- Concrete instantiation of `C6_leave_encashment` on `sampleForm`: leave
encashment "YES" contributes half of the December gross of 500. -/
theorem C6_leave_encashment_witness :
    (process_salary_form sampleForm []).el_encashment_amount = (1/2) * 500 := by
  have hfind : ((process_salary_form sampleForm []).monthly_rows).find?
      (fun r => r.month == mkMonth 2025 11) =
        some (sampleRow (mkMonth 2025 11)) := by
    rw [process_sample_rows]
    simp [MONTHS, mkMonth, sampleRow, List.find?_cons]
  have h := (C6_leave_encashment sampleForm [] (sampleRow (mkMonth 2025 11))
    hfind).2.1 rfl
  simpa [sampleRow] using h
